import Mathlib

/-!
# Verification of the react-query core request-cache engine

A shallow embedding of the core state machines of the repository:

* `query.ts` — the per-key query state machine (its pure `reducer`, the
  `setOptions` cache-time bookkeeping, `scheduleGc`, `optionalRemove` and the
  `fetch` deduplication guard);
* `retryer.ts` — the generic retry/backoff engine `createRetryer`, modelled as
  a labelled transition system over its loop phases (running attempt, backoff
  sleep, pause, settled);
* `mutation.ts` — the mutation `execute` protocol;
* `queryCache.ts` — the keyed registry with build-or-reuse semantics;
* `notifyManager` — the reentrant notification batcher;
* `queryClient.ts` — the `fetchQuery` facade.

JavaScript idioms are translated explicitly: `undefined`/`null` become
`Option`, durations that may be `Infinity` become the `JTime` type, timestamps
are `Nat` with `0` standing for "never updated" (matching the falsiness
checks in the code such as `!state.dataUpdatedAt`), and `Date.now()` is passed in as an
explicit `now` argument.
-/

namespace ReactQuery

/-- A JavaScript duration value: a finite number of milliseconds or
`Infinity` (used for `cacheTime: Infinity`). -/
inductive JTime where
  | fin (n : Nat)
  | inf
deriving DecidableEq, Repr

namespace JTime

/-- JavaScript `Math.max` on durations: anything joined with `Infinity` is `Infinity`. -/
def jmax : JTime → JTime → JTime
  | fin a, fin b => fin (Nat.max a b)
  | _, inf => inf
  | inf, _ => inf

/-- Boolean `≤` on durations, with `Infinity` as the top element. -/
def jle : JTime → JTime → Bool
  | fin a, fin b => a ≤ b
  | _, inf => true
  | inf, fin _ => false

end JTime

/-- Status values from `types.ts` (`QueryStatus`): idle, loading, error, success. -/
inductive QueryStatus where
  | idle
  | loading
  | error
  | success
deriving DecidableEq, Repr

/-- Errors flowing through the engine.  `cancelled` embeds `CancelledError`
from `retryer.ts` with its `revert`/`silent` flags; `failure` is an arbitrary
application error thrown by a fetch/mutation function (identified by a code). -/
inductive QErr where
  | cancelled (revert silent : Bool)
  | failure (code : Nat)
deriving DecidableEq, Repr

/-- Predicate `isCancelledError` from `retryer.ts` (an instanceof check on `CancelledError`). -/
def isCancelledError : QErr → Bool
  | .cancelled _ _ => true
  | .failure _ => false

/-- The `revert` flag of a `CancelledError`; `false` for any other error
(reading `.revert` off a non-cancellation yields `undefined`, which is falsy). -/
def errRevert : QErr → Bool
  | .cancelled r _ => r
  | .failure _ => false

/-- The `silent` flag of a `CancelledError`; `false` for any other error. -/
def errSilent : QErr → Bool
  | .cancelled _ s => s
  | .failure _ => false

/-- Record `QueryState` from `query.ts`.  Cached data values are modelled as `Nat`;
timestamps are `Nat` with `0` meaning "never" (the code tests them for
falsiness); `fetchMeta` is an optional tag (`null` becomes `none`). -/
structure QState where
  data : Option Nat
  dataUpdateCount : Nat
  dataUpdatedAt : Nat
  error : Option QErr
  errorUpdateCount : Nat
  errorUpdatedAt : Nat
  fetchFailureCount : Nat
  fetchMeta : Option Nat
  isFetching : Bool
  isInvalidated : Bool
  isPaused : Bool
  status : QueryStatus
deriving DecidableEq, Repr

/-- The `Action` union from `query.ts` (the argument of the reducer). -/
inductive QAction where
  | failed
  | fetch (meta : Option Nat)
  | success (data : Option Nat) (dataUpdatedAt : Option Nat)
  | error (error : QErr)
  | invalidate
  | pause
  | cont
  | setState (state : QState)
deriving DecidableEq, Repr

/-- Function `getDefaultState` from `query.ts` for a query with no `initialData`:
no data, zero counters and timestamps, status `idle`. -/
def defaultQState : QState where
  data := none
  dataUpdateCount := 0
  dataUpdatedAt := 0
  error := none
  errorUpdateCount := 0
  errorUpdatedAt := 0
  fetchFailureCount := 0
  fetchMeta := none
  isFetching := false
  isInvalidated := false
  isPaused := false
  status := .idle

/-- The pure `reducer` from `query.ts`.  `now` stands for `Date.now()`.
The `error` case distinguishes a "reverted cancellation" (restores the prior
status) from every other error (stored, counted, status `error`). -/
def queryReducer (state : QState) (action : QAction) (now : Nat) : QState :=
  match action with
  | .failed =>
      { state with fetchFailureCount := state.fetchFailureCount + 1 }
  | .pause =>
      { state with isPaused := true }
  | .cont =>
      { state with isPaused := false }
  | .fetch meta =>
      { state with
        fetchFailureCount := 0
        fetchMeta := meta
        isFetching := true
        isPaused := false
        status := if state.dataUpdatedAt = 0 then .loading else state.status }
  | .success data dataUpdatedAt =>
      { state with
        data := data
        dataUpdateCount := state.dataUpdateCount + 1
        dataUpdatedAt := dataUpdatedAt.getD now
        error := none
        fetchFailureCount := 0
        isFetching := false
        isInvalidated := false
        isPaused := false
        status := .success }
  | .error e =>
      if isCancelledError e && errRevert e then
        let previousStatus : QueryStatus :=
          if state.dataUpdatedAt = 0 && state.errorUpdatedAt = 0 then .idle
          else if state.errorUpdatedAt < state.dataUpdatedAt then .success
          else .error
        { state with
          fetchFailureCount := 0
          isFetching := false
          isPaused := false
          status := previousStatus }
      else
        { state with
          error := some e
          errorUpdateCount := state.errorUpdateCount + 1
          errorUpdatedAt := now
          fetchFailureCount := state.fetchFailureCount + 1
          isFetching := false
          isPaused := false
          status := .error }
  | .invalidate =>
      { state with isInvalidated := true }
  | .setState s =>
      -- `{...state, ...action.state}` with every field present on the
      -- incoming state is a full overwrite
      s

/-! ## Retryer (`retryer.ts`)

`createRetryer` drives a zero-argument unit of work `config.fn` through a
retry loop `run()`.  We model the loop as a labelled transition system.  The
environment delivers events: the in-flight attempt settles, the backoff delay
elapses (carrying the focus/online signal readings sampled at that moment),
`proceed()` is called, `cancelRetry()` is called, or `cancel(options)` is
called.  The state records the loop phase, `retryer.failureCount`, how many
times `config.fn` has been invoked, the `isRetryCancelled` flag, the error of
the last failed attempt (used when a cancelled retry rejects) and the terminal
outcome.

Note on invocation counting: the body of `run()` in `retryer.ts` contains the
"Execute query" block

    try { promiseOrValue = config.fn() } catch (error) { ... }

twice in a row (lines 140–151), so every attempt start invokes `config.fn`
twice; only the result of the second invocation is awaited (the first
assignment to `promiseOrValue` is immediately overwritten).  `runAttempt`
reflects this. -/

/-- Type `RetryValue` from `retryer.ts`: a boolean, a number, or a predicate of
`failureCount` and the error.  Predicates are drawn from a fixed countable family indexed by a
code so that states stay decidable; `predAt i fc e` is the result of the
`i`-th predicate. -/
inductive RetryValue where
  | bool (b : Bool)
  | num (n : Nat)
  | pred (i : Nat)
deriving DecidableEq, Repr

/-- Interpretation of the predicate family for `RetryValue.pred`. -/
def predAt : Nat → Nat → QErr → Bool
  | 0, _, _ => false
  | _ + 1, failureCount, _ => failureCount % 2 = 0

/-- The `shouldRetry` test inside `run()`: retry when the policy is the literal
true, or is a number exceeding the current failure count, or is a predicate
accepting the failure count and the error. -/
def shouldRetry (retry : RetryValue) (failureCount : Nat) (err : QErr) : Bool :=
  match retry with
  | .bool b => b
  | .num n => failureCount < n
  | .pred i => predAt i failureCount err

/-- Defaulting `config.retry ?? 3` (line 179 of `retryer.ts`): the retryer-level default
is 3 retries. -/
def retryerEffectiveRetry (configRetry : Option RetryValue) : RetryValue :=
  configRetry.getD (.num 3)

instance : DecidableEq (Except QErr Nat) := fun a b =>
  match a, b with
  | .ok x, .ok y =>
      if h : x = y then .isTrue (by rw [h]) else .isFalse (by simp [h])
  | .error x, .error y =>
      if h : x = y then .isTrue (by rw [h]) else .isFalse (by simp [h])
  | .ok _, .error _ => .isFalse (by simp)
  | .error _, .ok _ => .isFalse (by simp)

/-- The phases of the `run()` loop: the promise of an attempt is outstanding
(`running`), the backoff sleep is outstanding (`sleeping`), a pause
is outstanding (`paused`), or the retryer promise has settled (`settled`). -/
inductive RPhase where
  | running
  | sleeping
  | paused
  | settled
deriving DecidableEq, Repr

structure RetryerState where
  phase : RPhase
  failureCount : Nat
  /-- Number of times `config.fn` has been invoked so far. -/
  invocations : Nat
  isRetryCancelled : Bool
  /-- Error of the most recent failed attempt (`error` captured by the
  `.catch` handler), used when a cancelled retry rejects. -/
  lastError : Option QErr
  /-- Terminal settlement of `retryer.promise`, once resolved/rejected. -/
  outcome : Option (Except QErr Nat)
deriving DecidableEq, Repr

/-- One execution of `run()`: nothing if already resolved, otherwise the
attempt starts — `config.fn()` is invoked twice (the duplicated "Execute
query" block) and the loop is back in the `running` phase awaiting the promise
of the second invocation. -/
def runAttempt (s : RetryerState) : RetryerState :=
  if s.phase = .settled then s
  else { s with phase := .running, invocations := s.invocations + 2 }

/-- The state right after `createRetryer` returns: `run()` has been called
once ("Start loop"). -/
def retryerStart : RetryerState :=
  runAttempt
    { phase := .running, failureCount := 0, invocations := 0
      isRetryCancelled := false, lastError := none, outcome := none }

/-- Events delivered to the retryer loop by its environment. -/
inductive REvent where
  /-- The awaited attempt promise settles with `r`. -/
  | fnSettled (r : Except QErr Nat)
  /-- Event: `sleep(delay)` elapses; `focused`/`online` are the readings of
  `focusManager.isFocused()` / `onlineManager.isOnline()` at that moment. -/
  | delayElapsed (focused online : Bool)
  /-- Event: `retryer.proceed()` (resolves the pending pause promise). -/
  | proceed
  /-- Event: `retryer.cancelRetry()`. -/
  | cancelRetry
  /-- Event: `retryer.cancel` with revert/silent options; rejects with a `CancelledError`. -/
  | cancel (revert silent : Bool)
deriving DecidableEq, Repr

/-- Helper `reject(error)` for a retryer that has not settled yet. -/
def retryerReject (s : RetryerState) (e : QErr) : RetryerState :=
  { s with phase := .settled, outcome := some (.error e) }

/-- The transition function of the `run()` loop. -/
def retryerStep (retry : RetryValue) (s : RetryerState) : REvent → RetryerState
  | .fnSettled r =>
      -- the `.then(resolve).catch(...)` continuation of the awaited attempt;
      -- only meaningful while an attempt is outstanding
      if s.phase ≠ .running then s
      else
        match r with
        | .ok d => { s with phase := .settled, outcome := some (.ok d) }
        | .error e =>
            if s.isRetryCancelled || !shouldRetry retry s.failureCount e then
              retryerReject s e
            else
              -- `retryer.failureCount++` happens before the delay
              { s with phase := .sleeping, failureCount := s.failureCount + 1
                       lastError := some e }
  | .delayElapsed focused online =>
      if s.phase ≠ .sleeping then s
      else if !focused || !online then
        -- `pause()`: suspend until `continueFn` is invoked
        { s with phase := .paused }
      else if s.isRetryCancelled then
        retryerReject s (s.lastError.getD (.failure 0))
      else
        runAttempt s
  | .proceed =>
      -- `continueFn` resolves the `pause()` promise; afterwards the same
      -- `isRetryCancelled` check guards the next `run()`
      if s.phase ≠ .paused then s
      else if s.isRetryCancelled then
        retryerReject s (s.lastError.getD (.failure 0))
      else
        runAttempt s
  | .cancelRetry =>
      { s with isRetryCancelled := true }
  | .cancel revert silent =>
      if s.phase = .settled then s
      else retryerReject s (.cancelled revert silent)

/-- Run the loop over a list of environment events. -/
def retryerTrace (retry : RetryValue) (events : List REvent) : RetryerState :=
  events.foldl (retryerStep retry) retryerStart

/-! ## Query-level bookkeeping (`query.ts`) -/

/-- The `cacheTime` computation inside `setOptions` (`query.ts` lines
440–443):

    query.cacheTime = Math.max(query.cacheTime || 0,
                               query.options.cacheTime ?? 5 * 60 * 1000)

`prev` is the previous `query.cacheTime` (`none` before the first call, since
the field starts out `undefined`); `supplied` is the `cacheTime` of the merged
options (`none` when absent). -/
def setOptionsCacheTime (prev : Option JTime) (supplied : Option JTime) : JTime :=
  JTime.jmax (prev.getD (.fin 0)) (supplied.getD (.fin (5 * 60 * 1000)))

/-- Fold a sequence of option updates (each carrying an optional `cacheTime`)
through `setOptionsCacheTime`, starting from a current cache time. -/
def cacheTimeAfter (cur : JTime) (updates : List (Option JTime)) : JTime :=
  updates.foldl (fun c u => setOptionsCacheTime (some c) u) cur

/-- Modelled from the spec: `isValidTimeout` lives in `utils.ts`, which is not
part of the sources; per the spec a GC timer is scheduled only for a finite
`cacheTime` ("`Infinity` disables eviction", "the last detach either schedules
GC (if finite `cacheTime`) or removes immediately"). -/
def isValidTimeout : JTime → Bool
  | .fin _ => true
  | .inf => false

/-- Function `scheduleGc` from `query.ts`: clears any pending timer and, if the cache
time is a valid timeout, schedules eviction after `cacheTime` milliseconds.
Returns the delay of the freshly scheduled timer, `none` if no timer is set. -/
def scheduleGc (cacheTime : JTime) : Option Nat :=
  if isValidTimeout cacheTime then
    match cacheTime with
    | .fin n => some n
    | .inf => none
  else none

/-- A query as needed for the garbage-collection claims: its state, its
resolved `cacheTime` and the number of attached observers. -/
structure MiniQuery where
  state : QState
  cacheTime : JTime
  observers : Nat
deriving Repr

/-- Function `optionalRemove` from `query.ts`: remove the query from the cache iff it
has no observers and is not fetching. -/
def optionalRemove (q : MiniQuery) : Bool :=
  q.observers = 0 && !q.state.isFetching

/-- The settlement path of `query.fetch` (the `onSuccess`/`onError` callbacks
handed to `createRetryer`, `query.ts` lines 381–409).  On success the data is
written through `setData` (which dispatches a `success` action; `isDataEqual`
is unset and structural sharing is the identity on scalar data).  On error a
non-silent failure dispatches an `error` action.  Afterwards, if
`query.cacheTime === 0`, `optionalRemove` runs.  Returns the updated query and
whether it was removed from the cache. -/
def onFetchSettled (q : MiniQuery) (res : Except QErr Nat) (now : Nat) :
    MiniQuery × Bool :=
  match res with
  | .ok d =>
      let q' := { q with state := queryReducer q.state (.success (some d) none) now }
      (q', q'.cacheTime = .fin 0 && optionalRemove q')
  | .error e =>
      let q' :=
        if isCancelledError e && errSilent e then q
        else { q with state := queryReducer q.state (.error e) now }
      (q', q'.cacheTime = .fin 0 && optionalRemove q')

/-! ### Fetch deduplication (`query.ts` `fetch`, lines 320–426)

`fetch` first checks the deduplication guard:

    if (query.state.isFetching)
      if (query.state.dataUpdatedAt && fetchOptions?.cancelRefetch) {
        query.cancel({ silent: true })
      } else if (promise) {
        return promise
      }

and otherwise dispatches a `fetch` action (if not already fetching with the
same meta) and creates a fresh retryer whose `run()` starts immediately.  The
model identifies an in-flight promise by the index of the retryer that
produced it and counts `config.fn` invocations through `retryerStart`. -/

structure QueryFetchState where
  state : QState
  /-- Field `promise`: identifier of the current in-flight retryer promise. -/
  promise : Option Nat
  /-- How many retryers have been created by this query. -/
  retryersCreated : Nat
  /-- Total invocations of the fetch function of the query. -/
  fnInvocations : Nat
deriving DecidableEq, Repr

/-- Start a fresh fetch: dispatch the `fetch` action when not already fetching
with the same meta, create a retryer (whose `run()` invokes the fetch function
`retryerStart.invocations` times up front) and store its promise. -/
def startFetch (q : QueryFetchState) (meta : Option Nat) (now : Nat) :
    QueryFetchState × Nat :=
  let st :=
    if !q.state.isFetching || q.state.fetchMeta ≠ meta then
      queryReducer q.state (.fetch meta) now
    else q.state
  let pid := q.retryersCreated
  ({ state := st
     promise := some pid
     retryersCreated := q.retryersCreated + 1
     fnInvocations := q.fnInvocations + retryerStart.invocations }, pid)

/-- The `fetch` entry point with its deduplication guard.  Returns the new
query bookkeeping and the identifier of the promise handed back to the
caller. -/
def queryFetch (q : QueryFetchState) (cancelRefetch : Bool) (meta : Option Nat)
    (now : Nat) : QueryFetchState × Nat :=
  if q.state.isFetching then
    if q.state.dataUpdatedAt ≠ 0 && cancelRefetch then
      -- silently cancel the current fetch, then fall through to a new fetch
      startFetch { q with promise := none } meta now
    else
      match q.promise with
      | some p => (q, p)
      | none => startFetch q meta now
  else startFetch q meta now

/-! ## Mutation (`mutation.ts`) -/

/-- Status values for mutations (`MutationStatus` from `types.ts`). -/
inductive MStatus where
  | idle
  | loading
  | error
  | success
deriving DecidableEq, Repr

/-- Record `MutationState` from `mutation.ts`.  `variables` and `context` are
modelled as optional `Nat`s (`variables` is a reserved word in Lean, so the
field is called `vars`). -/
structure MState where
  context : Option Nat
  data : Option Nat
  error : Option QErr
  failureCount : Nat
  isPaused : Bool
  status : MStatus
  vars : Option Nat
deriving DecidableEq, Repr

/-- The `Action` union of `mutation.ts`. -/
inductive MAction where
  | failed
  | loading (vars : Option Nat) (context : Option Nat)
  | success (data : Nat)
  | error (error : QErr)
  | pause
  | cont
  | setState (state : MState)
deriving DecidableEq, Repr

/-- The pure `reducer` from `mutation.ts`. -/
def mutationReducer (state : MState) : MAction → MState
  | .failed =>
      { state with failureCount := state.failureCount + 1 }
  | .pause =>
      { state with isPaused := true }
  | .cont =>
      { state with isPaused := false }
  | .loading vars context =>
      { state with
        context := context
        data := none
        error := none
        isPaused := false
        status := .loading
        vars := vars }
  | .success data =>
      { state with data := some data, error := none, status := .success
                   isPaused := false }
  | .error e =>
      { state with data := none, error := some e
                   failureCount := state.failureCount + 1
                   isPaused := false, status := .error }
  | .setState s => s

/-- The mutation options `execute` consults: `variables`, an optional
`onMutate` hook (computing an optimistic context from the variables) and the
retry policy. -/
structure MutationOpts where
  vars : Option Nat
  onMutate : Option (Option Nat → Option Nat)
  retry : Option RetryValue

/-- Observable outcome of one `execute()` call. -/
structure ExecResult where
  /-- How many times `options.onMutate` was invoked. -/
  onMutateCalls : Nat
  /-- How many times the mutation function was invoked (via the retryer). -/
  fnInvocations : Nat
  state : MState
  outcome : Option (Except QErr Nat)

/-- Method `execute()` from `mutation.ts` (lines 136–217).  A mutation whose current
status is `loading` is "restored": it skips the initial `loading` dispatch and
the whole `onMutate` stage, and proceeds straight to `executeMutation`.  A
fresh mutation dispatches `loading` with the variables from the options, invokes
`onMutate` (if configured) and re-dispatches `loading` with the produced
context when it differs from the stored one.  `executeMutation` then drives
the mutation function through a retryer built with `retry:
mutation.options.retry ?? 0`; `events` are the environment events delivered to
that retryer. -/
def mutationExecute (opts : MutationOpts) (st : MState) (events : List REvent) :
    ExecResult :=
  let restored := st.status = .loading
  let stage1 : MState × Nat :=
    if restored then (st, 0)
    else
      let stL := mutationReducer st (.loading opts.vars none)
      let (context, calls) :=
        match opts.onMutate with
        | none => (none, 0)
        | some f => (f stL.vars, 1)
      (if context ≠ stL.context then
         mutationReducer stL (.loading stL.vars context)
       else stL, calls)
  let st1 := stage1.1
  let r := retryerTrace (retryerEffectiveRetry (some (opts.retry.getD (.num 0)))) events
  let st2 :=
    match r.outcome with
    | some (.ok d) => mutationReducer st1 (.success d)
    | some (.error e) => mutationReducer st1 (.error e)
    | none => st1
  { onMutateCalls := stage1.2
    fnInvocations := r.invocations
    state := st2
    outcome := r.outcome }

/-! ## `fetchQuery` (`queryClient.ts`) -/

/-- Modelled from the spec: `timeUntilStale` lives in `utils.ts`, which is not
part of the sources.  Per the spec, data fetched at `dataUpdatedAt` stays
fresh for `staleTime` milliseconds (default 0: immediately stale); the
remaining freshness is clamped at zero, which `Nat` subtraction does. -/
def timeUntilStale (updatedAt : Nat) (staleTime : Option Nat) (now : Nat) : Nat :=
  updatedAt + staleTime.getD 0 - now

/-- Method `isStaleByTime` from `query.ts`: invalidated, never successfully fetched,
or the freshness window has elapsed. -/
def isStaleByTime (st : QState) (staleTime : Option Nat) (now : Nat) : Bool :=
  st.isInvalidated || st.dataUpdatedAt = 0 ||
    timeUntilStale st.dataUpdatedAt staleTime now = 0

/-- Observable outcome of one `queryClient.fetchQuery` call. -/
structure FetchQueryResult where
  /-- Whether `query.fetch` was invoked at all. -/
  fetched : Bool
  /-- The `retry` value carried by the defaulted options into the retryer
  (`none` when no retryer was created). -/
  retryGiven : Option RetryValue
  /-- Invocations of the fetch function of the query. -/
  fnInvocations : Nat
  result : Option Nat
deriving DecidableEq, Repr

/-- Method `fetchQuery` from `queryClient.ts` (lines 880–902) against a cached query
in state `st`: default the options, force `retry` to `false` when the caller
supplied none, and either fetch (when stale by `staleTime`) or resolve to the
cached data.  `fnResult` is what the fetch function produces if it runs. -/
def fetchQueryModel (st : QState) (optRetry : Option RetryValue)
    (staleTime : Option Nat) (now : Nat) (fnResult : Except QErr Nat) :
    FetchQueryResult :=
  -- fetchQuery forces retry to false when the caller left it undefined
  let retry : Option RetryValue := some (optRetry.getD (.bool false))
  if isStaleByTime st staleTime now then
    let r := retryerTrace (retryerEffectiveRetry retry) [.fnSettled fnResult]
    { fetched := true
      retryGiven := retry
      fnInvocations := r.invocations
      result := match r.outcome with | some (.ok d) => some d | _ => none }
  else
    { fetched := false, retryGiven := none, fnInvocations := 0
      result := st.data }

/-! ## QueryCache (`queryCache.ts`) -/

/-- A registered query as the cache sees it: its identity (objects created by
distinct `createQuery` calls are distinct, captured by `qid`) and its
`queryHash` (hash strings modelled as `Nat`). -/
structure QueryM where
  qid : Nat
  queryHash : Nat
deriving DecidableEq, Repr

/-- State owned by the cache: the ordered `queries` list, the `queriesMap`
hash-to-query map (an association list — a JS object keyed by hash) and a
counter supplying fresh identities. -/
structure CacheState where
  queries : List QueryM
  queriesMap : List (Nat × QueryM)
  nextId : Nat
deriving DecidableEq, Repr

def emptyCache : CacheState := ⟨[], [], 0⟩

/-- Lookup `queriesMap[queryHash]` (the `get` method). -/
def cacheGet (s : CacheState) (h : Nat) : Option QueryM :=
  (s.queriesMap.find? (fun p => p.1 = h)).map (·.2)

/-- Method `add` from `queryCache.ts`: register the query only when its hash is not
yet in the map. -/
def cacheAdd (s : CacheState) (q : QueryM) : CacheState :=
  if (cacheGet s q.queryHash).isNone then
    { s with
      queriesMap := s.queriesMap ++ [(q.queryHash, q)]
      queries := s.queries ++ [q] }
  else s

/-- Method `build` from `queryCache.ts`: return the existing query for the hash, or
create a fresh one and `add` it. -/
def cacheBuild (s : CacheState) (h : Nat) : QueryM × CacheState :=
  match cacheGet s h with
  | some q => (q, s)
  | none =>
      let q : QueryM := ⟨s.nextId, h⟩
      (q, cacheAdd { s with nextId := s.nextId + 1 } q)

/-- Method `remove` from `queryCache.ts`: if some query is registered under the
hash of the argument, filter the argument out of the list and delete the map entry
only when the registered query is the argument itself. -/
def cacheRemove (s : CacheState) (q : QueryM) : CacheState :=
  match cacheGet s q.queryHash with
  | none => s
  | some qInMap =>
      { s with
        queries := s.queries.filter (fun x => x ≠ q)
        queriesMap :=
          if qInMap = q then
            s.queriesMap.filter (fun p => p.1 ≠ q.queryHash)
          else s.queriesMap }

/-- The registry operations an external caller can perform: `build`, `add`
and `remove` are the public methods of `queryCache.ts` that mutate the
registry (`add` may be called with an arbitrary query object). -/
inductive CacheOp where
  | build (h : Nat)
  | add (q : QueryM)
  | remove (q : QueryM)
deriving DecidableEq, Repr

def applyOp (s : CacheState) : CacheOp → CacheState
  | .build h => (cacheBuild s h).2
  | .add q => cacheAdd s q
  | .remove q => cacheRemove s q

def applyOps (ops : List CacheOp) : CacheState :=
  ops.foldl applyOp emptyCache

/-- The registry invariant: every listed query is the one its hash maps to,
and every map entry points back into the list with a consistent hash. -/
def CacheInv (s : CacheState) : Prop :=
  (∀ q ∈ s.queries, cacheGet s q.queryHash = some q) ∧
  (∀ p ∈ s.queriesMap, p.2 ∈ s.queries ∧ p.2.queryHash = p.1)

/-! ## NotifyManager (`notifyManager.ts`) -/

/-- Mutable state of the notify manager: the reentrancy counter
`transactions`, the pending `queue`, plus the observable effects — the
batches flushed so far and the callbacks scheduled immediately (outside any
batch, straight to a microtask).  Callbacks are identified by `Nat`. -/
structure NMState where
  transactions : Nat
  queue : List Nat
  flushes : List (List Nat)
  immediate : List Nat
deriving DecidableEq, Repr

/-- Method `flush()`: when the queue is non-empty, schedule one microtask notifying
every queued callback in order; always reset the queue. -/
def nmFlush (s : NMState) : NMState :=
  if s.queue.isEmpty then { s with queue := [] }
  else { s with queue := [], flushes := s.flushes ++ [s.queue] }

/-- Method `schedule(callback)`: queue during a transaction, otherwise notify on its
own microtask. -/
def nmSchedule (s : NMState) (cb : Nat) : NMState :=
  if s.transactions ≠ 0 then { s with queue := s.queue ++ [cb] }
  else { s with immediate := s.immediate ++ [cb] }

/-- A batched computation: what a `batch` callback does, as far as the notify
manager is concerned — it schedules callbacks and opens nested batches. -/
inductive NMProg where
  | skip
  | schedule (cb : Nat)
  | seq (p q : NMProg)
  | batch (p : NMProg)
deriving DecidableEq, Repr

/-- Execute a program against the manager.  `batch` increments
`transactions`, runs the callback, decrements, and flushes only when the
counter is back at zero. -/
def nmRun (s : NMState) : NMProg → NMState
  | .skip => s
  | .schedule cb => nmSchedule s cb
  | .seq p q => nmRun (nmRun s p) q
  | .batch p =>
      let s1 := { s with transactions := s.transactions + 1 }
      let s2 := nmRun s1 p
      let s3 := { s2 with transactions := s2.transactions - 1 }
      if s3.transactions = 0 then nmFlush s3 else s3

/-- The callbacks a program schedules, in order. -/
def nmScheduled : NMProg → List Nat
  | .skip => []
  | .schedule cb => [cb]
  | .seq p q => nmScheduled p ++ nmScheduled q
  | .batch p => nmScheduled p

/-! ## Theorems -/

theorem JTime.jle_refl (a : JTime) : jle a a = true := by
  cases a <;> simp [jle]

theorem JTime.jle_trans {a b c : JTime} (h1 : jle a b = true)
    (h2 : jle b c = true) : jle a c = true := by
  cases a <;> cases b <;> cases c <;> simp_all [jle]
  omega

theorem JTime.jle_jmax_left (a b : JTime) : jle a (jmax a b) = true := by
  cases a <;> cases b <;> simp [jle, jmax]


/-- **C4**: applying the `error` action with an error that is a cancellation
carrying the revert flag leaves `data`, `error`, `dataUpdatedAt`,
`errorUpdatedAt` and both update counts unchanged and restores the prior
status (`idle` if neither `dataUpdatedAt` nor `errorUpdatedAt` is set,
`success` if `dataUpdatedAt > errorUpdatedAt`, otherwise `error`); for any
other error the state stores the error, bumps `errorUpdateCount`, and sets
the status to `error`. -/
theorem error_action_reverts_or_stores (s : QState) (e : QErr) (now : Nat) :
    ((isCancelledError e && errRevert e) = true →
      (queryReducer s (.error e) now).data = s.data ∧
      (queryReducer s (.error e) now).error = s.error ∧
      (queryReducer s (.error e) now).dataUpdatedAt = s.dataUpdatedAt ∧
      (queryReducer s (.error e) now).errorUpdatedAt = s.errorUpdatedAt ∧
      (queryReducer s (.error e) now).dataUpdateCount = s.dataUpdateCount ∧
      (queryReducer s (.error e) now).errorUpdateCount = s.errorUpdateCount ∧
      (queryReducer s (.error e) now).status =
        (if s.dataUpdatedAt = 0 && s.errorUpdatedAt = 0 then .idle
         else if s.errorUpdatedAt < s.dataUpdatedAt then .success else .error)) ∧
    ((isCancelledError e && errRevert e) = false →
      (queryReducer s (.error e) now).error = some e ∧
      (queryReducer s (.error e) now).errorUpdateCount = s.errorUpdateCount + 1 ∧
      (queryReducer s (.error e) now).status = .error) := by
  constructor
  · intro h
    simp [queryReducer, h]
  · intro h
    simp [queryReducer, h]

/-- Witness for **C4**: a reverted cancellation on the default (never fetched)
state restores status `idle`; a plain failure is stored with status `error`. -/
theorem error_action_reverts_or_stores_witness :
    (queryReducer defaultQState (.error (.cancelled true false)) 5).status = .idle ∧
    (queryReducer defaultQState (.error (.failure 3)) 5).error = some (.failure 3) := by
  constructor
  · have h :=
      (error_action_reverts_or_stores defaultQState (.cancelled true false) 5).1
        (by decide)
    simpa using h.2.2.2.2.2.2
  · have h :=
      (error_action_reverts_or_stores defaultQState (.failure 3) 5).2 (by decide)
    exact h.1

/-- Helper for C10: folding any sequence of option updates through
`setOptionsCacheTime` never decreases the cache time. -/
theorem jle_cacheTimeAfter (updates : List (Option JTime)) :
    ∀ c : JTime, JTime.jle c (cacheTimeAfter c updates) = true := by
  induction updates with
  | nil => intro c; exact JTime.jle_refl c
  | cons u us ih =>
      intro c
      have h1 : JTime.jle c (setOptionsCacheTime (some c) u) = true := by
        simpa [setOptionsCacheTime] using
          JTime.jle_jmax_left c (u.getD (.fin (5 * 60 * 1000)))
      have h2 := ih (setOptionsCacheTime (some c) u)
      have h3 : cacheTimeAfter c (u :: us) =
          cacheTimeAfter (setOptionsCacheTime (some c) u) us := rfl
      rw [h3]
      exact JTime.jle_trans h1 h2

/-- **C10**: every `setOptions` call (and `fetch`, which always calls
`setOptions`) sets `query.cacheTime` to the maximum of its previous value and
the newly supplied cache time, defaulting to 5 minutes (300000 ms) when no
`cacheTime` option is given; consequently the effective cache time is
monotonically non-decreasing across any sequence of option updates, so a
later update with a smaller `cacheTime` never shortens the retention. -/
theorem cacheTime_never_shortened (c : JTime) (u : Option JTime)
    (updates : List (Option JTime)) :
    setOptionsCacheTime (some c) u = JTime.jmax c (u.getD (.fin 300000)) ∧
    setOptionsCacheTime none none = .fin 300000 ∧
    JTime.jle c (setOptionsCacheTime (some c) u) = true ∧
    JTime.jle c (cacheTimeAfter c updates) = true := by
  refine ⟨rfl, rfl, ?_, jle_cacheTimeAfter updates c⟩
  simpa [setOptionsCacheTime] using
    JTime.jle_jmax_left c (u.getD (.fin (5 * 60 * 1000)))

/-- **C2** (code bug evaluation): a retryer with `retry: 2` and a unit of
work that always rejects settles after failure count 2 and rejects with the
last error, but the unit of work is invoked 6 times in total — two per
attempt, because `run()` contains the `config.fn()` block twice — not the 3
times the specification states. -/
theorem retry_two_always_fail_six_invocations (e1 e2 e3 : Nat) :
    (retryerTrace (.num 2)
        [.fnSettled (.error (.failure e1)), .delayElapsed true true,
         .fnSettled (.error (.failure e2)), .delayElapsed true true,
         .fnSettled (.error (.failure e3))]).phase = .settled ∧
    (retryerTrace (.num 2)
        [.fnSettled (.error (.failure e1)), .delayElapsed true true,
         .fnSettled (.error (.failure e2)), .delayElapsed true true,
         .fnSettled (.error (.failure e3))]).failureCount = 2 ∧
    (retryerTrace (.num 2)
        [.fnSettled (.error (.failure e1)), .delayElapsed true true,
         .fnSettled (.error (.failure e2)), .delayElapsed true true,
         .fnSettled (.error (.failure e3))]).outcome =
      some (.error (.failure e3)) ∧
    (retryerTrace (.num 2)
        [.fnSettled (.error (.failure e1)), .delayElapsed true true,
         .fnSettled (.error (.failure e2)), .delayElapsed true true,
         .fnSettled (.error (.failure e3))]).invocations = 6 := by
  exact ⟨rfl, rfl, rfl, rfl⟩

/-- **C7**: while a retryer is paused (entered from the backoff sleep when the
focus or online signal reads false), no event other than `proceed` starts a
further attempt or changes `failureCount`; entering the pause changes neither
`failureCount` nor the invocation count; and `proceed` (with retries not
cancelled) restarts the loop, which begins a new attempt. -/
theorem paused_retryer_frozen_until_proceed (retry : RetryValue)
    (s : RetryerState) (e : REvent) :
    (s.phase = .paused → e ≠ .proceed →
      (retryerStep retry s e).invocations = s.invocations ∧
      (retryerStep retry s e).failureCount = s.failureCount ∧
      (retryerStep retry s e).phase ≠ .running) ∧
    (s.phase = .sleeping → ∀ focused online : Bool, (focused && online) = false →
      retryerStep retry s (.delayElapsed focused online) =
        { s with phase := .paused }) ∧
    (s.phase = .paused → s.isRetryCancelled = false →
      retryerStep retry s .proceed =
        { s with phase := .running, invocations := s.invocations + 2 }) := by
  refine ⟨?_, ?_, ?_⟩
  · intro hp hne
    cases e with
    | fnSettled r => simp [retryerStep, hp]
    | delayElapsed focused online => simp [retryerStep, hp]
    | proceed => exact absurd rfl hne
    | cancelRetry => simp [retryerStep, hp]
    | cancel r si => simp [retryerStep, retryerReject, hp]
  · intro hs focused online hfo
    have hb : (!focused || !online) = true := by
      cases focused <;> cases online <;> simp_all
    simp [retryerStep, hs, hb]
  · intro hp hc
    simp [retryerStep, hp, hc, runAttempt]

/-- Witness for **C7**: in a concretely paused retryer (failure count 1, four
invocations so far), the delay-elapsed and settle events leave the invocation
and failure counts unchanged, and `proceed` restarts an attempt. -/
theorem paused_retryer_frozen_witness :
    (retryerStep (.num 3)
        ⟨.paused, 1, 4, false, some (.failure 2), none⟩
        (.delayElapsed true true)).invocations = 4 ∧
    (retryerStep (.num 3)
        ⟨.paused, 1, 4, false, some (.failure 2), none⟩
        (.fnSettled (.error (.failure 9)))).failureCount = 1 ∧
    (retryerStep (.num 3)
        ⟨.paused, 1, 4, false, some (.failure 2), none⟩ .proceed).invocations = 6 := by
  refine ⟨?_, ?_, ?_⟩
  · have h :=
      (paused_retryer_frozen_until_proceed (.num 3)
        ⟨.paused, 1, 4, false, some (.failure 2), none⟩
        (.delayElapsed true true)).1 rfl (by decide)
    exact h.1
  · have h :=
      (paused_retryer_frozen_until_proceed (.num 3)
        ⟨.paused, 1, 4, false, some (.failure 2), none⟩
        (.fnSettled (.error (.failure 9)))).1 rfl (by decide)
    exact h.2.1
  · have h :=
      (paused_retryer_frozen_until_proceed (.num 3)
        ⟨.paused, 1, 4, false, some (.failure 2), none⟩
        (.fnSettled (.ok 0))).2.2 rfl rfl
    simp [h]

/-- **C1** (code bug evaluation): a second `fetch()` issued while the first is
in flight (no `cancelRefetch`) is deduplicated — it returns the same promise
and no second retryer is created, so both calls resolve to the same value —
but the single retryer has already invoked the underlying fetch function 2
times (the duplicated `config.fn()` block in `run()`), not the 1 time the
specification states. -/
theorem concurrent_fetch_dedup_but_two_invocations :
    (queryFetch (queryFetch ⟨defaultQState, none, 0, 0⟩ false none 0).1
        false none 1).2 =
      (queryFetch ⟨defaultQState, none, 0, 0⟩ false none 0).2 ∧
    (queryFetch (queryFetch ⟨defaultQState, none, 0, 0⟩ false none 0).1
        false none 1).1.retryersCreated = 1 ∧
    (queryFetch (queryFetch ⟨defaultQState, none, 0, 0⟩ false none 0).1
        false none 1).1.fnInvocations = 2 := by
  exact ⟨rfl, rfl, rfl⟩

/-- **C3** (code bug evaluation): a mutation restored in `loading` status with
stored variables and context, then executed, never invokes `onMutate`
(whatever hook is configured) — but the mutation function, driven through the
retryer, is invoked 2 times for its single successful attempt (the duplicated
`config.fn()` block in `run()`), not the 1 time the specification states. -/
theorem resumed_mutation_skips_onMutate_but_double_invokes
    (f : Option Nat → Option Nat) (v ctx d : Nat) :
    (mutationExecute ⟨some v, some f, none⟩
        ⟨some ctx, none, none, 0, true, .loading, some v⟩
        [.fnSettled (.ok d)]).onMutateCalls = 0 ∧
    (mutationExecute ⟨some v, some f, none⟩
        ⟨some ctx, none, none, 0, true, .loading, some v⟩
        [.fnSettled (.ok d)]).fnInvocations = 2 ∧
    (mutationExecute ⟨some v, some f, none⟩
        ⟨some ctx, none, none, 0, true, .loading, some v⟩
        [.fnSettled (.ok d)]).state.status = .success ∧
    (mutationExecute ⟨some v, some f, none⟩
        ⟨some ctx, none, none, 0, true, .loading, some v⟩
        [.fnSettled (.ok d)]).state.data = some d := by
  exact ⟨rfl, rfl, rfl, rfl⟩

/-- **C5**: `fetchQuery` with no explicit `retry` option hands the retryer
`retry = false` (not the retryer-level default of 3 retries, which `shouldRetry`
would otherwise apply), and when the cached query is not stale by the given
`staleTime` it resolves to the cached data without invoking the fetch
function. -/
theorem fetchQuery_retry_off_and_fresh_shortcircuit (st : QState)
    (staleTime : Option Nat) (now : Nat) (fnResult : Except QErr Nat) :
    retryerEffectiveRetry none = .num 3 ∧
    ((fetchQueryModel st none staleTime now fnResult).fetched = true →
      (fetchQueryModel st none staleTime now fnResult).retryGiven =
        some (.bool false) ∧
      retryerEffectiveRetry (some (.bool false)) = .bool false ∧
      ∀ fc err, shouldRetry (.bool false) fc err = false) ∧
    (isStaleByTime st staleTime now = false →
      (fetchQueryModel st none staleTime now fnResult).fetched = false ∧
      (fetchQueryModel st none staleTime now fnResult).result = st.data ∧
      (fetchQueryModel st none staleTime now fnResult).fnInvocations = 0) := by
  refine ⟨rfl, ?_, ?_⟩
  · intro h
    by_cases hs : isStaleByTime st staleTime now = true
    · exact ⟨by simp [fetchQueryModel, hs], rfl, fun fc err => rfl⟩
    · exact absurd h (by simp [fetchQueryModel, hs])
  · intro h
    simp [fetchQueryModel, h]

/-- Witness for **C5**: data fetched at t=100 with `staleTime` 100 queried
again at t=150 is fresh, so `fetchQuery` returns the cached value 5 with zero
fetch-function invocations; queried at t=250 it is stale and fetches with
`retry` forced to false. -/
theorem fetchQuery_retry_off_and_fresh_shortcircuit_witness :
    (fetchQueryModel
        { defaultQState with data := some 5, dataUpdatedAt := 100, status := .success }
        none (some 100) 150 (.ok 9)).result = some 5 ∧
    (fetchQueryModel
        { defaultQState with data := some 5, dataUpdatedAt := 100, status := .success }
        none (some 100) 150 (.ok 9)).fnInvocations = 0 ∧
    (fetchQueryModel
        { defaultQState with data := some 5, dataUpdatedAt := 100, status := .success }
        none (some 100) 250 (.ok 9)).retryGiven = some (.bool false) := by
  refine ⟨?_, ?_, ?_⟩
  · have h :=
      (fetchQuery_retry_off_and_fresh_shortcircuit
        { defaultQState with data := some 5, dataUpdatedAt := 100, status := .success }
        (some 100) 150 (.ok 9)).2.2 (by decide)
    exact h.2.1
  · have h :=
      (fetchQuery_retry_off_and_fresh_shortcircuit
        { defaultQState with data := some 5, dataUpdatedAt := 100, status := .success }
        (some 100) 150 (.ok 9)).2.2 (by decide)
    exact h.2.2
  · have h :=
      (fetchQuery_retry_off_and_fresh_shortcircuit
        { defaultQState with data := some 5, dataUpdatedAt := 100, status := .success }
        (some 100) 250 (.ok 9)).2.1 (by decide)
    exact h.1

/-- **C6**: a query with `cacheTime` 0 and zero observers is removed from the
cache immediately after its fetch settles, on success as well as on a
non-cancellation error (the settle path runs `optionalRemove` when
`cacheTime === 0`); a query with `cacheTime: Infinity` is not removed on
settle, and `scheduleGc` never schedules a garbage-collection timer for it. -/
theorem cacheTime_zero_removes_infinity_never_gc (st : QState) (c d now : Nat) :
    (onFetchSettled ⟨st, .fin 0, 0⟩ (.ok d) now).2 = true ∧
    (onFetchSettled ⟨st, .fin 0, 0⟩ (.error (.failure c)) now).2 = true ∧
    (onFetchSettled ⟨st, .inf, 0⟩ (.ok d) now).2 = false ∧
    scheduleGc .inf = none := by
  refine ⟨?_, ?_, ?_, rfl⟩
  · simp [onFetchSettled, queryReducer, optionalRemove]
  · simp [onFetchSettled, queryReducer, optionalRemove, isCancelledError, errSilent]
  · simp [onFetchSettled]

/-- Helper for C9: while at least one batch is open (`transactions ≥ 1`),
running any program only appends its scheduled callbacks to the queue — the
transaction counter, the flushed batches and the immediately-notified list are
untouched, and nested batches never flush. -/
theorem nmRun_in_open_batch (p : NMProg) :
    ∀ (t : Nat) (q i : List Nat) (f : List (List Nat)),
      nmRun ⟨t + 1, q, f, i⟩ p = ⟨t + 1, q ++ nmScheduled p, f, i⟩ := by
  induction p with
  | skip =>
      intro t q i f
      simp [nmRun, nmScheduled]
  | schedule cb =>
      intro t q i f
      simp [nmRun, nmSchedule, nmScheduled]
  | seq p1 p2 ih1 ih2 =>
      intro t q i f
      simp [nmRun, nmScheduled, ih1, ih2]
  | batch p1 ih =>
      intro t q i f
      simp [nmRun, nmScheduled, ih]

/-- **C9**: for every nesting of `notifyManager.batch` calls, callbacks
scheduled inside any inner batch are queued rather than run (first conjunct:
with a batch already open, running any program — including nested batches —
only appends to the queue and flushes nothing), and the queued notifications
are flushed exactly once, when the outermost batch closes and the transaction
counter returns to zero (second conjunct: one new flush containing exactly the
scheduled callbacks, none if nothing was scheduled). -/
theorem nested_batches_flush_once_at_outermost (p : NMProg) (t : Nat)
    (q i : List Nat) (f : List (List Nat)) :
    nmRun ⟨t + 1, q, f, i⟩ p = ⟨t + 1, q ++ nmScheduled p, f, i⟩ ∧
    nmRun ⟨0, [], f, i⟩ (.batch p) =
      ⟨0, [],
       f ++ (if (nmScheduled p).isEmpty then [] else [nmScheduled p]), i⟩ := by
  refine ⟨nmRun_in_open_batch p t q i f, ?_⟩
  have h : nmRun ⟨0 + 1, [], f, i⟩ p = ⟨0 + 1, [] ++ nmScheduled p, f, i⟩ :=
    nmRun_in_open_batch p 0 [] i f
  simp only [List.nil_append] at h
  simp only [nmRun, h]
  by_cases he : (nmScheduled p).isEmpty
  · have hnil : nmScheduled p = [] := by simpa using he
    simp [nmFlush, hnil]
  · simp [nmFlush, he]

/-- Helper for C8: entries whose key differs from the deleted one are found
unchanged in the filtered association list. -/
theorem find?_filter_ne (m : List (Nat × QueryM)) (h hh : Nat) (hne : hh ≠ h) :
    (m.filter (fun p => p.1 ≠ h)).find? (fun p => p.1 = hh) =
      m.find? (fun p => p.1 = hh) := by
  induction m with
  | nil => rfl
  | cons a m ih =>
      by_cases ha : a.1 = hh
      · have haf : a.1 ≠ h := by rw [ha]; exact hne
        rw [List.filter_cons_of_pos (by simpa using haf)]
        rw [List.find?_cons_of_pos _ (by simpa using ha),
            List.find?_cons_of_pos _ (by simpa using ha)]
      · by_cases haf : a.1 = h
        · rw [List.filter_cons_of_neg (by simpa using haf)]
          rw [List.find?_cons_of_neg _ (by simpa using ha)]
          exact ih
        · rw [List.filter_cons_of_pos (by simpa using haf)]
          rw [List.find?_cons_of_neg _ (by simpa using ha),
              List.find?_cons_of_neg _ (by simpa using ha)]
          exact ih

/-- Helper for C8: the empty cache satisfies the registry invariant. -/
theorem cacheInv_empty : CacheInv emptyCache := by
  constructor
  · intro q hq
    simp [emptyCache] at hq
  · intro p hp
    simp [emptyCache] at hp

/-- Helper for C8: `build` for a hash that is already registered returns the
existing query and leaves the cache untouched. -/
theorem cacheGet_build_some {s : CacheState} {h : Nat} {q : QueryM}
    (hget : cacheGet s h = some q) : cacheBuild s h = (q, s) := by
  simp [cacheBuild, hget]

/-- Helper for C8: `add` preserves the registry invariant, for an arbitrary
query object — when the hash is already mapped the guard makes `add` a no-op,
otherwise the query and its map entry are appended together. -/
theorem cacheInv_add {s : CacheState} (inv : CacheInv s) (q : QueryM) :
    CacheInv (cacheAdd s q) := by
  rcases hget : cacheGet s q.queryHash with _ | qm
  · have hfind : s.queriesMap.find? (fun p => p.1 = q.queryHash) = none := by
      rcases hf : s.queriesMap.find? (fun p => p.1 = q.queryHash) with _ | pr
      · exact hf
      · exfalso
        unfold cacheGet at hget
        rw [hf] at hget
        simp at hget
    have hadd : cacheAdd s q =
        { queries := s.queries ++ [q]
          queriesMap := s.queriesMap ++ [(q.queryHash, q)]
          nextId := s.nextId } := by
      simp [cacheAdd, hget]
    rw [hadd]
    constructor
    · intro x hx
      rcases List.mem_append.mp hx with hx | hx
      · have hx' := inv.1 x hx
        unfold cacheGet at hx' ⊢
        rcases hpr : s.queriesMap.find? (fun p => p.1 = x.queryHash) with _ | pr
        · rw [hpr] at hx'
          simp at hx'
        · rw [hpr] at hx'
          simp at hx'
          simp [List.find?_append, hpr, hx']
      · have hx' : x = q := by simpa using hx
        subst hx'
        unfold cacheGet
        simp [List.find?_append, hfind]
    · intro p hp
      rcases List.mem_append.mp hp with hp | hp
      · obtain ⟨h1, h2⟩ := inv.2 p hp
        exact ⟨List.mem_append.mpr (.inl h1), h2⟩
      · have hp' : p = (q.queryHash, q) := by simpa using hp
        subst hp'
        exact ⟨List.mem_append.mpr (.inr (by simp)), rfl⟩
  · have hskip : cacheAdd s q = s := by
      simp [cacheAdd, hget]
    rw [hskip]
    exact inv

/-- Helper for C8: `build` preserves the registry invariant — it either
returns the registered query unchanged or `add`s a fresh one. -/
theorem cacheInv_build {s : CacheState} (inv : CacheInv s) (h : Nat) :
    CacheInv (cacheBuild s h).2 := by
  rcases hget : cacheGet s h with _ | q
  · have hb : (cacheBuild s h).2 =
        cacheAdd { s with nextId := s.nextId + 1 } ⟨s.nextId, h⟩ := by
      simp [cacheBuild, hget]
    rw [hb]
    -- the invariant never mentions `nextId`, so it transfers definitionally
    -- to the state with the bumped counter
    exact cacheInv_add (s := { s with nextId := s.nextId + 1 }) inv ⟨s.nextId, h⟩
  · have hb := cacheGet_build_some hget
    rw [hb]
    exact inv

/-- Helper for C8: `remove` preserves the registry invariant. -/
theorem cacheInv_remove {s : CacheState} (inv : CacheInv s) (q : QueryM) :
    CacheInv (cacheRemove s q) := by
  rcases hget : cacheGet s q.queryHash with _ | qm
  · simpa [cacheRemove, hget] using inv
  · by_cases heq : qm = q
    · subst heq
      have hrm : cacheRemove s qm =
          { queries := s.queries.filter (fun x => x ≠ qm)
            queriesMap := s.queriesMap.filter (fun p => p.1 ≠ qm.queryHash)
            nextId := s.nextId } := by
        simp [cacheRemove, hget]
      rw [hrm]
      constructor
      · intro x hx
        have hx1 : x ∈ s.queries := List.mem_of_mem_filter hx
        have hx2 : x ≠ qm := by
          have := List.of_mem_filter hx
          simpa using this
        have hh : x.queryHash ≠ qm.queryHash := by
          intro hcontra
          apply hx2
          have e1 := inv.1 x hx1
          rw [hcontra, hget] at e1
          exact (Option.some_inj.mp e1).symm
        unfold cacheGet
        show ((s.queriesMap.filter (fun p => p.1 ≠ qm.queryHash)).find?
          (fun p => p.1 = x.queryHash)).map _ = _
        rw [find?_filter_ne s.queriesMap qm.queryHash x.queryHash hh]
        exact inv.1 x hx1
      · intro p hp
        have hp1 : p ∈ s.queriesMap := List.mem_of_mem_filter hp
        have hp2 : p.1 ≠ qm.queryHash := by
          have := List.of_mem_filter hp
          simpa using this
        obtain ⟨h1, h2⟩ := inv.2 p hp1
        refine ⟨List.mem_filter.mpr ⟨h1, ?_⟩, h2⟩
        simp only [decide_eq_true_eq]
        intro hcontra
        apply hp2
        rw [← h2, hcontra]
    · have hq_not : q ∉ s.queries := by
        intro hmem
        have e1 := inv.1 q hmem
        rw [hget] at e1
        exact heq (Option.some_inj.mp e1)
      have hfilter : s.queries.filter (fun x => x ≠ q) = s.queries := by
        apply List.filter_eq_self.mpr
        intro a ha
        have hne : a ≠ q := fun hc => hq_not (hc ▸ ha)
        exact decide_eq_true hne
      have hrm : cacheRemove s q = s := by
        simp only [cacheRemove, hget]
        rw [if_neg heq, hfilter]
      rw [hrm]
      exact inv

/-- Helper for C8: every cache state reachable from the empty cache by
`build`/`add`/`remove` operations satisfies the registry invariant. -/
theorem cacheInv_applyOps (ops : List CacheOp) : CacheInv (applyOps ops) := by
  suffices hsuff : ∀ s, CacheInv s → CacheInv (List.foldl applyOp s ops) from
    hsuff emptyCache cacheInv_empty
  induction ops with
  | nil =>
      intro s hs
      exact hs
  | cons op ops ih =>
      intro s hs
      refine ih (applyOp s op) ?_
      cases op with
      | build h => exact cacheInv_build hs h
      | add q => exact cacheInv_add hs q
      | remove q => exact cacheInv_remove hs q

/-- **C8**: in every state of a query cache reachable by any sequence of
`build`, `add` and `remove` operations, at most one query exists per distinct
`queryHash` (two registered queries with equal hashes are the same query), and
`build` for a hash that is already registered returns the existing query and
leaves the cache unchanged rather than constructing a new one. -/
theorem cache_at_most_one_query_per_hash (ops : List CacheOp) :
    (∀ q1 ∈ (applyOps ops).queries, ∀ q2 ∈ (applyOps ops).queries,
        q1.queryHash = q2.queryHash → q1 = q2) ∧
    (∀ (h : Nat) (q : QueryM), cacheGet (applyOps ops) h = some q →
        cacheBuild (applyOps ops) h = (q, applyOps ops)) := by
  have inv := cacheInv_applyOps ops
  constructor
  · intro q1 h1 q2 h2 hh
    have e1 := inv.1 q1 h1
    have e2 := inv.1 q2 h2
    rw [hh] at e1
    rw [e1] at e2
    exact Option.some_inj.mp e2
  · intro h q hget
    exact cacheGet_build_some hget

/-- Witness for **C8**: after a `build` of hash 5 followed by an `add` of a
different query object carrying the same hash (a no-op, the hash is taken),
the registered query is still the one from `build`, any two equal-hash entries
coincide, and rebuilding hash 5 returns it without altering the cache. -/
theorem cache_at_most_one_query_per_hash_witness :
    (⟨0, 5⟩ : QueryM) = ⟨0, 5⟩ ∧
    cacheBuild (applyOps [.build 5, .add ⟨9, 5⟩]) 5 =
      (⟨0, 5⟩, applyOps [.build 5, .add ⟨9, 5⟩]) := by
  constructor
  · exact (cache_at_most_one_query_per_hash [.build 5, .add ⟨9, 5⟩]).1
      ⟨0, 5⟩ (by decide) ⟨0, 5⟩ (by decide) rfl
  · exact (cache_at_most_one_query_per_hash [.build 5, .add ⟨9, 5⟩]).2 5 ⟨0, 5⟩
      (by decide)

end ReactQuery
